import Mathlib

/-!
Verification model of the strongarm dataflow / symbol-resolution engine.

The engine itself (Register Dataflow Engine, Call Target Resolver,
Symbol Demangler, Function Analyzer) is not part of the checked-in
sources; every definition below carries a doc comment starting
`Modelled from the spec:` naming the component it embeds, faithful to
the specification's wording.
-/

namespace StrongarmModel

/-- Modelled from the spec: `RegisterContents` is a tagged result of dataflow
resolution — either `Unknown` (no statically resolvable value) or
`Immediate(value)` (a concrete address-sized integer). -/
inductive RegisterContents where
  | unknown : RegisterContents
  | immediate (value : Int) : RegisterContents
deriving DecidableEq, Repr

/-- Modelled from the spec: the operation class of a decoded instruction,
a closed tagged variant (page-load / immediate-add-sub / memory-load /
unconditional-branch / conditional-branch / other), with the operand
descriptors (register names, immediate values, memory base+offset) each
class carries.  An unconditional branch's destination is optional: it is
absent for a fully indirect dispatch recognized only via relocation/stub
metadata.  The `other` class records which registers the instruction
defines, so the backward scan can tell that it clobbers a register. -/
inductive Op where
  | pageLoad (dst : String) (base : Nat) : Op
  | addImm (dst src : String) (imm : Nat) : Op
  | subImm (dst src : String) (imm : Nat) : Op
  | memLoad (dst base : String) (off : Nat) : Op
  | uncondBranch (dest : Option Nat) : Op
  | condBranch (dest : Nat) : Op
  | other (clobbered : List String) : Op
deriving DecidableEq, Repr

/-- Modelled from the spec: a decoded `Instruction` is an immutable value
carrying its address and operation class with operands.  The byte length
of the encoding is not consulted by any modelled operation and is omitted. -/
structure Instruction where
  address : Nat
  op : Op
deriving DecidableEq, Repr

/-- Whether an operation class is an unconditional branch. -/
def Op.isUncondBranch : Op → Bool
  | .uncondBranch _ => true
  | _ => false

/-! ## Register Dataflow Engine (spec section 4.1) -/

/-- Modelled from the spec: the backward defining scan of the Register
Dataflow Engine.  The instruction list is the portion of the function
strictly before the query point, in reverse chronological order; `acc`
is the offset accumulated from add/subtract-immediate and memory-load
instructions that reuse the tracked register as both source and
destination.  A page-relative-load of the register yields
`Immediate (base + acc)`; an add/sub-immediate or a memory-load
`load R, [R, #off]` on the same register accumulates rather than
restarting the search; any other instruction class that defines the
register yields `Unknown`; instructions not defining the register are
skipped; reaching the function start yields `Unknown`. -/
def scanDefines (reg : String) : List Instruction → Int → RegisterContents
  | [], _ => .unknown
  | i :: rest, acc =>
    match i.op with
    | .pageLoad dst base =>
        if dst = reg then .immediate ((base : Int) + acc) else scanDefines reg rest acc
    | .addImm dst src imm =>
        if dst = reg then
          (if src = reg then scanDefines reg rest (acc + (imm : Int)) else .unknown)
        else scanDefines reg rest acc
    | .subImm dst src imm =>
        if dst = reg then
          (if src = reg then scanDefines reg rest (acc - (imm : Int)) else .unknown)
        else scanDefines reg rest acc
    | .memLoad dst base off =>
        if dst = reg then
          (if base = reg then scanDefines reg rest (acc + (off : Int)) else .unknown)
        else scanDefines reg rest acc
    | .uncondBranch _ => scanDefines reg rest acc
    | .condBranch _ => scanDefines reg rest acc
    | .other clobbered =>
        if reg ∈ clobbered then .unknown else scanDefines reg rest acc

/-- Modelled from the spec: `resolve(function, register, at_instruction)`.
The scan starts at the instruction immediately preceding the query index
and walks backward toward the function's first instruction; it never
inspects instructions at or after `at_instruction` and never crosses the
function boundary. -/
def resolve (f : List Instruction) (reg : String) (idx : Nat) : RegisterContents :=
  scanDefines reg ((f.take idx).reverse) 0

/-! ## Symbol Demangler (spec section 4.2) -/

/-- Leading-underscore stripper: returns how many leading underscores a
character list has together with the remainder. -/
def dropUnderscores : List Char → Nat × List Char
  | '_' :: rest =>
    let (n, r) := dropUnderscores rest
    (n + 1, r)
  | cs => (0, cs)

/-- Modelled from the spec: strip one to three leading underscores (extra
underscores occur because Objective-C block trampolines add an underscore
to an already-mangled name) and require the canonical start-of-mangled-name
marker `Z`; yields the remainder after the marker, or `none` on mismatch. -/
def stripMangleMarker (cs : List Char) : Option (List Char) :=
  let (n, rest) := dropUnderscores cs
  if 1 ≤ n ∧ n ≤ 3 then
    match rest with
    | 'Z' :: r => some r
    | _ => none
  else none

/-- Modelled from the spec: detection of a mangled C++ symbol.  After the
underscore-count and `Z` marker check, the remainder must begin a
well-formed encoded name: length-prefixed (a digit) or one of the special
forms (nested name `N`, substitution `S`, local name `L`).  Grammar
mismatches — e.g. a literal symbol that merely starts with the marker —
are rejected: detection is conservative, preferring `false` over
mis-parsing. -/
def is_mangled_cpp_symbol (s : String) : Bool :=
  match stripMangleMarker s.data with
  | some (c :: _) => c.isDigit || c = 'N' || c = 'S' || c = 'L'
  | _ => false

/-- Splits a leading run of decimal digits off a character list. -/
def spanDigits : List Char → List Char × List Char
  | [] => ([], [])
  | c :: rest =>
    if c.isDigit then
      let (d, r) := spanDigits rest
      (c :: d, r)
    else ([], c :: rest)

/-- Decimal value of a digit string. -/
def digitsToNat (ds : List Char) : Nat :=
  ds.foldl (fun a c => a * 10 + (c.toNat - 48)) 0

/-- Modelled from the spec: demangling of the Itanium-style mangled
grammar into a human-readable signature.  Only the fragment exercised by
the specification's block-naming and conservative-detection sentences is
rendered: a length-prefixed unscoped source name with a void parameter
list demangles to `name()`.  Every input outside that fragment is
returned unchanged — the conservative fallback the spec requires for
grammar mismatches. -/
def demangle_cpp_symbol (s : String) : String :=
  match stripMangleMarker s.data with
  | some rest =>
    match spanDigits rest with
    | ([], _) => s
    | (ds, r) =>
      let n := digitsToNat ds
      if n ≤ r.length then
        match r.drop n with
        | ['v'] => String.mk (r.take n ++ ['(', ')'])
        | _ => s
      else s
  | none => s

/-- The literal block-trampoline suffix the spec's block-naming rule keys
on, as a character list: an underscore separator followed by
`block_invoke`. -/
def blockSuffixChars : List Char :=
  ['_', 'b', 'l', 'o', 'c', 'k', '_', 'i', 'n', 'v', 'o', 'k', 'e']

/-- The block suffix reversed, for matching at the end of a name. -/
def blockSuffixRev : List Char :=
  ['e', 'k', 'o', 'v', 'n', 'i', '_', 'k', 'c', 'o', 'l', 'b', '_']

/-- Splits a trailing run of decimal digits off a reversed character
list: returns the digits (still reversed) and the rest. -/
def takeDigitsRev : List Char → List Char × List Char
  | [] => ([], [])
  | c :: rest =>
    if c.isDigit then
      let (d, r) := takeDigitsRev rest
      (c :: d, r)
    else ([], c :: rest)

/-- Whether the second list begins with the first. -/
def startsWithChars : List Char → List Char → Bool
  | [], _ => true
  | _ :: _, [] => false
  | p :: ps, c :: cs => p = c && startsWithChars ps cs

/-- Modelled from the spec: recognizes an identifier ending with the
literal suffix pattern `block_invoke` optionally followed by a numeric
suffix; yields the enclosing name with the block suffix stripped together
with the numeric suffix when present. -/
def splitBlockSuffix (s : String) : Option (String × Option Nat) :=
  let rev := s.data.reverse
  let (dsRev, restRev) := takeDigitsRev rev
  if startsWithChars blockSuffixRev restRev then
    some (String.mk ((restRev.drop blockSuffixRev.length).reverse),
          if dsRev.isEmpty then none else some (digitsToNat dsRev.reverse))
  else none

/-- Modelled from the spec: rendering of a block name — `block in
<enclosing>` without a numeric suffix, `block N in <enclosing>` with one. -/
def renderBlockName (enclosing : String) : Option Nat → String
  | none => "block in " ++ enclosing
  | some k => "block " ++ Nat.repr k ++ " in " ++ enclosing

/-! ## Call Target Resolver (spec section 4.3) and binary-wide tables -/

/-- Modelled from the spec: the binary-wide read-only tables the Call
Target Resolver queries — the stub/trampoline table binding stub
addresses to dynamic-dispatch symbols, the import symbol table, the
selector-reference table (address of the reference cell, decoded
selector name), and the relocation metadata supplied by the collaborator
binding a fully indirect call instruction's address to the dispatch
symbol it reaches. -/
structure BinaryModel where
  dispatchStubs : List (Nat × String)
  importTable : List (Nat × String)
  selrefTable : List (Nat × String)
  indirectDispatchTable : List (Nat × String)
deriving DecidableEq, Repr

/-- Association-list lookup on an address-keyed table. -/
def lookupAddr : List (Nat × String) → Nat → Option String
  | [], _ => none
  | (k, v) :: rest, a => if k = a then some v else lookupAddr rest a

/-- Modelled from the spec: `CallTarget` — optional destination address
(absent only for fully indirect dispatch), dispatch classification
flags, optional resolved selector-reference address, optional resolved
symbol name. -/
structure CallTarget where
  destination_address : Option Nat
  is_msgSend_call : Bool
  is_external_objc_call : Bool
  is_external_c_call : Bool
  selref : Option Nat
  symbol : Option String
deriving DecidableEq, Repr

/-- Modelled from the spec: the conventional selector-argument register —
the second argument register of the target calling convention. -/
def selectorArgRegister : String := "x1"

/-- Membership lookup of a dataflow-resolved immediate in the
selector-reference table: yields the reference-cell address when the
immediate maps through the table. -/
def selrefLookup : List (Nat × String) → Int → Option Nat
  | [], _ => none
  | (a, _) :: rest, v => if (a : Int) = v then some a else selrefLookup rest v

/-- Modelled from the spec: selector-reference resolution for a
dynamic-dispatch call — run the Dataflow Engine for the selector-argument
register at the call instruction and map the resulting `Immediate`
through the selector-reference table; an `Unknown` result leaves the
selref absent. -/
def selrefFromDataflow (bin : BinaryModel) (f : List Instruction) (idx : Nat) : Option Nat :=
  match resolve f selectorArgRegister idx with
  | .unknown => none
  | .immediate v => selrefLookup bin.selrefTable v

/-- Modelled from the spec: a dynamic-dispatch (msgSend) call target —
`is_msgSend_call` and `is_external_objc_call` set, selref resolved via
the Dataflow Engine, symbol taken from the stub or relocation binding. -/
def msgSendTarget (bin : BinaryModel) (f : List Instruction) (idx : Nat)
    (dest : Option Nat) (sym : Option String) : CallTarget :=
  { destination_address := dest
    is_msgSend_call := true
    is_external_objc_call := true
    is_external_c_call := false
    selref := selrefFromDataflow bin f idx
    symbol := sym }

/-- Modelled from the spec: an external C call target — destination
resolved via the import table and `symbol` set to the resolved name. -/
def externalCTarget (d : Nat) (name : String) : CallTarget :=
  { destination_address := some d
    is_msgSend_call := false
    is_external_objc_call := false
    is_external_c_call := true
    selref := none
    symbol := some name }

/-- Modelled from the spec: a local branch target — destination set, all
external/msgSend flags false, symbol absent. -/
def localTarget (d : Nat) : CallTarget :=
  { destination_address := some d
    is_msgSend_call := false
    is_external_objc_call := false
    is_external_c_call := false
    selref := none
    symbol := none }

/-- Modelled from the spec: classification of one unconditional branch by
the Call Target Resolver, in the spec's priority order.  A branch with no
fixed destination is a fully indirect dispatch recognized via relocation
metadata: `destination_address` is absent and the target is still an
external Objective-C call.  A destination matching the stub/trampoline
table is a dynamic-dispatch (msgSend) call; otherwise a destination
resolving through the import table is an external C call; otherwise the
branch is local. -/
def classifyUncondBranch (bin : BinaryModel) (f : List Instruction) (idx : Nat)
    (addr : Nat) (dest : Option Nat) : CallTarget :=
  match dest with
  | none => msgSendTarget bin f idx none (lookupAddr bin.indirectDispatchTable addr)
  | some d =>
    match lookupAddr bin.dispatchStubs d with
    | some sym => msgSendTarget bin f idx (some d) (some sym)
    | none =>
      match lookupAddr bin.importTable d with
      | some name => externalCTarget d name
      | none => localTarget d

/-- Modelled from the spec: the Function Analyzer's lazily computed
`call_targets` sequence — the Call Target Resolver run over every
branch/call instruction of the function in order.  The first list
argument is the whole function (the dataflow context); the recursion
walks its remaining instructions carrying the current index. -/
def callTargetsFrom (bin : BinaryModel) (f : List Instruction) :
    Nat → List Instruction → List CallTarget
  | _, [] => []
  | idx, i :: rest =>
    match i.op with
    | .uncondBranch dest =>
        classifyUncondBranch bin f idx i.address dest :: callTargetsFrom bin f (idx + 1) rest
    | .condBranch d =>
        localTarget d :: callTargetsFrom bin f (idx + 1) rest
    | _ => callTargetsFrom bin f (idx + 1) rest

/-- Modelled from the spec: `call_targets` of a Function Analyzer holding
the instruction list `f` inside binary `bin`. -/
def call_targets (bin : BinaryModel) (f : List Instruction) : List CallTarget :=
  callTargetsFrom bin f 0 f

/-! ## Function Analyzer symbol naming and selref lookup (spec section 4.4) -/

/-- Modelled from the spec: the typed error kinds — `InvalidOperand`,
`InvalidArgument`, `NotFound` — all local recoverable conditions. -/
inductive AnalyzerError where
  | invalidOperand : AnalyzerError
  | invalidArgument : AnalyzerError
  | notFound : AnalyzerError
deriving DecidableEq, Repr

/-- Modelled from the spec: `get_objc_selref(instruction)` requires the
instruction be an unconditional branch — failing with `InvalidArgument`
otherwise — and returns the selector-reference address obtained via the
Dataflow Engine as in the resolver's dynamic-dispatch step. -/
def get_objc_selref (bin : BinaryModel) (f : List Instruction) (idx : Nat)
    (i : Instruction) : Except AnalyzerError (Option Nat) :=
  match i.op with
  | .uncondBranch _ => .ok (selrefFromDataflow bin f idx)
  | _ => .error .invalidArgument

/-- Modelled from the spec: `MethodInfo` binds one class and one selector
to an implementation; its stored kind distinguishes class methods from
instance methods. -/
structure MethodInfo where
  isClassMethod : Bool
  className : String
  selectorName : String
deriving DecidableEq, Repr

/-- Modelled from the spec: `get_symbol_name()` — returns
`-[Class selector]` / `+[Class selector]` when bound to a `MethodInfo`;
otherwise consults the symbol-table lookup for the entry address
(supplied by the collaborator as `rawName`), returning the literal
`_unsymbolicated_function` when no name is found; otherwise applies the
block-naming rule when the name ends with the block-invoke suffix
(demangling the enclosing name when mangled, appending `()` to a plain
one) and else returns the demangled form when `is_mangled_cpp_symbol`
holds, or the raw name unchanged. -/
def get_symbol_name (mi : Option MethodInfo) (rawName : Option String) : String :=
  match mi with
  | some m =>
      (if m.isClassMethod then "+[" else "-[") ++ m.className ++ " " ++ m.selectorName ++ "]"
  | none =>
    match rawName with
    | none => "_unsymbolicated_function"
    | some raw =>
      match splitBlockSuffix raw with
      | some (base, n) =>
          renderBlockName
            (if is_mangled_cpp_symbol base then demangle_cpp_symbol base else base ++ "()") n
      | none =>
          if is_mangled_cpp_symbol raw then demangle_cpp_symbol raw else raw

/-! ## Concrete fixtures mirroring the regression scenarios -/

/-- Binary-wide tables for the delegate-method scenario: one msgSend
dispatch stub, an import-table binding for two C symbols, one
selector-reference cell, and relocation metadata naming the dispatch
symbol of one fully indirect call site. -/
def binW : BinaryModel :=
  { dispatchStubs := [(0x1000067A8, "_objc_msgSend")]
    importTable := [(0x1000067CC, "_objc_retain"), (0x100006760, "_SecTrustEvaluate")]
    selrefTable := [(0x1000090C0, "respondsToSelector:")]
    indirectDispatchTable := [(0x100006500, "_objc_msgSend")] }

/-- Function body for the delegate-method scenario: a selector-reference
address materialized into the selector-argument register by a page load
plus add, followed by a fully indirect dispatch, an external C call, a
dispatch-stub call and a local branch. -/
def fW : List Instruction :=
  [⟨0x1000064F8, .pageLoad "x1" 0x100009000⟩,
   ⟨0x1000064FC, .addImm "x1" "x1" 0xC0⟩,
   ⟨0x100006500, .uncondBranch none⟩,
   ⟨0x100006504, .uncondBranch (some 0x1000067CC)⟩,
   ⟨0x100006508, .uncondBranch (some 0x1000067A8)⟩,
   ⟨0x10000650C, .uncondBranch (some 0x100006504)⟩]

/-- The call target the resolver produces for the fully indirect dispatch
of `fW`. -/
def ctIndirect : CallTarget := classifyUncondBranch binW fW 2 0x100006500 none

/-- The call target the resolver produces for the external C call of
`fW`. -/
def ctExternalC : CallTarget := classifyUncondBranch binW fW 3 0x100006504 (some 0x1000067CC)

/-- A binary with empty tables, for the scenario of a fully indirect
dispatch whose selector dataflow is unresolvable. -/
def binE : BinaryModel :=
  { dispatchStubs := [], importTable := [], selrefTable := [], indirectDispatchTable := [] }

/-- A function consisting of a single fully indirect dispatch with no
prior definition of the selector-argument register. -/
def fE : List Instruction := [⟨0x100000500, .uncondBranch none⟩]

/-! ## Helper lemmas -/

/-- Taking the length of the left part plus `i` from an appended list
keeps the left part whole and takes `i` from the right part. -/
theorem take_length_add {α : Type} (l₁ l₂ : List α) (i : Nat) :
    (l₁ ++ l₂).take (l₁.length + i) = l₁ ++ l₂.take i := by
  induction l₁ with
  | nil => simp
  | cons a l ih =>
      have h : l.length + 1 + i = (l.length + i) + 1 := by omega
      simp only [List.cons_append, List.length_cons, h, List.take_succ_cons, ih]

/-- Every call target the resolver emits satisfies the classification
invariants: an absent destination comes only from the dynamic-dispatch
case, and an external C call carries exactly the import-table binding of
its destination. -/
theorem callTargetsFrom_inv (bin : BinaryModel) (f : List Instruction) :
    ∀ (l : List Instruction) (idx : Nat) (ct : CallTarget),
      ct ∈ callTargetsFrom bin f idx l →
      ((ct.destination_address = none →
          ct.is_msgSend_call = true ∧ ct.is_external_objc_call = true) ∧
        (ct.is_external_c_call = true →
          ∃ d, ct.destination_address = some d ∧ lookupAddr bin.importTable d = ct.symbol)) := by
  intro l
  induction l with
  | nil =>
      intro idx ct h
      simp [callTargetsFrom] at h
  | cons i rest ih =>
      intro idx ct h
      cases hop : i.op with
      | uncondBranch dest =>
          simp only [callTargetsFrom, hop] at h
          rcases List.mem_cons.mp h with hct | hct
          · subst hct
            cases dest with
            | none =>
                constructor
                · intro _
                  exact ⟨rfl, rfl⟩
                · intro hc
                  simp [classifyUncondBranch, msgSendTarget] at hc
            | some d =>
                cases hs : lookupAddr bin.dispatchStubs d with
                | some sym =>
                    constructor
                    · intro hd
                      simp [classifyUncondBranch, hs, msgSendTarget] at hd
                    · intro hc
                      simp [classifyUncondBranch, hs, msgSendTarget] at hc
                | none =>
                    cases hi : lookupAddr bin.importTable d with
                    | some name =>
                        constructor
                        · intro hd
                          simp [classifyUncondBranch, hs, hi, externalCTarget] at hd
                        · intro _
                          refine ⟨d, ?_, ?_⟩
                          · simp [classifyUncondBranch, hs, hi, externalCTarget]
                          · simp [classifyUncondBranch, hs, hi, externalCTarget]
                    | none =>
                        constructor
                        · intro hd
                          simp [classifyUncondBranch, hs, hi, localTarget] at hd
                        · intro hc
                          simp [classifyUncondBranch, hs, hi, localTarget] at hc
          · exact ih (idx + 1) ct hct
      | condBranch d =>
          simp only [callTargetsFrom, hop] at h
          rcases List.mem_cons.mp h with hct | hct
          · subst hct
            constructor
            · intro hd
              simp [localTarget] at hd
            · intro hc
              simp [localTarget] at hc
          · exact ih (idx + 1) ct hct
      | pageLoad dst base =>
          simp only [callTargetsFrom, hop] at h
          exact ih (idx + 1) ct h
      | addImm dst src imm =>
          simp only [callTargetsFrom, hop] at h
          exact ih (idx + 1) ct h
      | subImm dst src imm =>
          simp only [callTargetsFrom, hop] at h
          exact ih (idx + 1) ct h
      | memLoad dst base off =>
          simp only [callTargetsFrom, hop] at h
          exact ih (idx + 1) ct h
      | other clobbered =>
          simp only [callTargetsFrom, hop] at h
          exact ih (idx + 1) ct h

/-- A successful selector-reference lookup returns an address that is a
key of the selector-reference table. -/
theorem selrefLookup_mem :
    ∀ (t : List (Nat × String)) (x : Int) (a : Nat),
      selrefLookup t x = some a → ∃ nm, (a, nm) ∈ t := by
  intro t
  induction t with
  | nil =>
      intro x a h
      simp [selrefLookup] at h
  | cons p rest ih =>
      obtain ⟨k, nm⟩ := p
      intro x a h
      rw [selrefLookup] at h
      by_cases hc : ((k : Int) = x)
      · rw [if_pos hc] at h
        have hk : k = a := Option.some.inj h
        subst hk
        exact ⟨nm, List.mem_cons_self _ _⟩
      · rw [if_neg hc] at h
        rcases ih x a h with ⟨nm2, hm⟩
        exact ⟨nm2, List.mem_cons_of_mem _ hm⟩

/-- String append is associative. -/
theorem stringAppendAssoc : ∀ (a b c : String), a ++ b ++ c = a ++ (b ++ c)
  | ⟨x⟩, ⟨y⟩, ⟨z⟩ => congrArg String.mk (List.append_assoc x y z)

/-- A list starts with itself followed by anything. -/
theorem startsWithChars_append (p rest : List Char) :
    startsWithChars p (p ++ rest) = true := by
  induction p with
  | nil => rfl
  | cons c cs ih => simp [startsWithChars, ih]

/-- The trailing-digit splitter leaves a list alone when its head is not
a digit. -/
theorem takeDigitsRev_nondigit (c : Char) (cs : List Char) (h : c.isDigit = false) :
    takeDigitsRev (c :: cs) = ([], c :: cs) := by
  rw [takeDigitsRev, h]
  simp

/-- The trailing-digit splitter leaves the reversed block suffix (plus
anything after it) alone, since the suffix ends in a letter. -/
theorem takeDigitsRev_blockSuffixRev (x : List Char) :
    takeDigitsRev (blockSuffixRev ++ x) = ([], blockSuffixRev ++ x) := by
  simp only [blockSuffixRev, List.cons_append]
  exact takeDigitsRev_nondigit _ _ (by decide)

/-- Appending the block-invoke suffix to any name is recognized by the
suffix splitter, which recovers the name and reports no numeric suffix. -/
theorem splitBlockSuffix_append (b : String) :
    splitBlockSuffix (b ++ "_block_invoke") = some (b, none) := by
  have hdata : (b ++ "_block_invoke").data = b.data ++ blockSuffixChars := by
    rw [String.congr_append]
    show b.data ++ "_block_invoke".data = b.data ++ blockSuffixChars
    congr 1
  have hrev : blockSuffixChars.reverse = blockSuffixRev := by decide
  unfold splitBlockSuffix
  rw [hdata, List.reverse_append, hrev]
  simp only [takeDigitsRev_blockSuffixRev, startsWithChars_append, if_true, List.drop_left,
    List.reverse_reverse, List.isEmpty_nil]

/-- The trailing-digit splitter takes a leading run of digits off the
reversed name whenever what follows is itself left alone. -/
theorem takeDigitsRev_digits (ds rest : List Char)
    (hd : ∀ c ∈ ds, c.isDigit = true) (hr : takeDigitsRev rest = ([], rest)) :
    takeDigitsRev (ds ++ rest) = (ds, rest) := by
  induction ds with
  | nil => simpa using hr
  | cons c t ih =>
      have hc : c.isDigit = true := hd c (List.mem_cons_self c t)
      have ht : ∀ x ∈ t, x.isDigit = true := fun x hx => hd x (List.mem_cons_of_mem _ hx)
      rw [List.cons_append, takeDigitsRev, hc]
      simp [ih ht]

/-- Appending the block-invoke suffix and a nonempty digit string to any
name is recognized by the suffix splitter, which recovers the name and
the numeric value of the digit string. -/
theorem splitBlockSuffix_append_digits (b : String) (ds : List Char)
    (hne : ds ≠ []) (hdig : ∀ c ∈ ds, c.isDigit = true) :
    splitBlockSuffix (b ++ "_block_invoke" ++ String.mk ds)
      = some (b, some (digitsToNat ds)) := by
  have h1 : (b ++ "_block_invoke").data = b.data ++ blockSuffixChars := by
    rw [String.congr_append]
    show b.data ++ "_block_invoke".data = b.data ++ blockSuffixChars
    congr 1
  have hdata : (b ++ "_block_invoke" ++ String.mk ds).data
      = (b.data ++ blockSuffixChars) ++ ds := by
    rw [String.congr_append]
    show (b ++ "_block_invoke").data ++ (String.mk ds).data = (b.data ++ blockSuffixChars) ++ ds
    rw [h1]
  have hrev : blockSuffixChars.reverse = blockSuffixRev := by decide
  have hrevdig : ∀ c ∈ ds.reverse, c.isDigit = true := by
    intro c hc
    exact hdig c (List.mem_reverse.mp hc)
  have hnerev : ds.reverse.isEmpty = false := by
    cases hds : ds.reverse with
    | nil => exact absurd (List.reverse_eq_nil_iff.mp hds) hne
    | cons c t => rfl
  unfold splitBlockSuffix
  rw [hdata, List.reverse_append, List.reverse_append, hrev]
  simp only [takeDigitsRev_digits ds.reverse (blockSuffixRev ++ b.data.reverse) hrevdig
      (takeDigitsRev_blockSuffixRev _),
    startsWithChars_append, if_true, List.drop_left, List.reverse_reverse, hnerev]
  simp

/-! ## Claim theorems -/

/-- C5: a symbol ending in the block-invoke suffix with no numeric suffix
renders as `block in <enclosing>()` — shown in general for any unmangled
enclosing name; a symbol ending in the suffix followed by any nonempty
numeric suffix of value N renders as `block N in <enclosing>` — shown in
general for every enclosing name (demangled when mangled, with `()`
appended when plain) and every digit string; and in particular the
mangled `___Z5test1v_block_invoke` renders as `block in test1()` while
its numeric-suffix variant `___Z5test1v_block_invoke2` renders as
`block 2 in test1()`. -/
theorem block_invoke_rendering :
    (∀ b : String, is_mangled_cpp_symbol b = false →
        get_symbol_name none (some (b ++ "_block_invoke")) = "block in " ++ (b ++ "()")) ∧
    (∀ (b : String) (ds : List Char), ds ≠ [] → (∀ c ∈ ds, c.isDigit = true) →
        get_symbol_name none (some (b ++ "_block_invoke" ++ String.mk ds)) =
          "block " ++ Nat.repr (digitsToNat ds) ++ " in "
            ++ (if is_mangled_cpp_symbol b then demangle_cpp_symbol b else b ++ "()")) ∧
    get_symbol_name none (some "___Z5test1v_block_invoke") = "block in test1()" ∧
    get_symbol_name none (some "___Z5test1v_block_invoke2") = "block 2 in test1()" := by
  refine ⟨?_, ?_, by decide, by decide⟩
  · intro b hb
    simp only [get_symbol_name, splitBlockSuffix_append b, hb]
    rfl
  · intro b ds hne hdig
    simp only [get_symbol_name, splitBlockSuffix_append_digits b ds hne hdig]
    rfl

/-- C5 witness: the general unmangled-enclosing-name clause applied to a
concrete plain symbol, and the general numeric-suffix clause applied to a
concrete mangled enclosing name with the two-digit suffix 17. -/
theorem block_invoke_rendering_witness :
    is_mangled_cpp_symbol "handleTap" = false ∧
    get_symbol_name none (some ("handleTap" ++ "_block_invoke")) =
      "block in " ++ ("handleTap" ++ "()") ∧
    get_symbol_name none (some ("___Z5test1v" ++ "_block_invoke" ++ String.mk ['1', '7'])) =
      "block 17 in test1()" :=
  ⟨by decide, block_invoke_rendering.1 "handleTap" (by decide),
   (block_invoke_rendering.2.1 "___Z5test1v" ['1', '7'] (by decide) (by decide)).trans
     (by decide)⟩

/-- C6: the literal symbol `__ZappBrannigan`, which merely starts with the
mangling marker, is not detected as a mangled C++ symbol, and
`get_symbol_name` returns it unchanged rather than misdemangling it. -/
theorem misleading_symbol_unchanged :
    is_mangled_cpp_symbol "__ZappBrannigan" = false ∧
    get_symbol_name none (some "__ZappBrannigan") = "__ZappBrannigan" := by
  exact ⟨by decide, by decide⟩

/-- C7: `get_symbol_name` returns the literal `_unsymbolicated_function`
when no symbol-table entry exists for the entry address and no
`MethodInfo` is bound, and `-[Class selector]` whenever the analyzer is
bound to an instance-method `MethodInfo`. -/
theorem symbol_name_fallback_and_method :
    get_symbol_name none none = "_unsymbolicated_function" ∧
    (∀ (cls sel : String) (rawName : Option String),
        get_symbol_name (some ⟨false, cls, sel⟩) rawName =
          "-[" ++ cls ++ " " ++ sel ++ "]") := by
  refine ⟨rfl, ?_⟩
  intro cls sel rawName
  rfl

/-- C1: every call target produced by running the Call Target Resolver
over the branch/call instructions of a function whose
`destination_address` is absent has `is_external_objc_call` true. -/
theorem dest_absent_implies_external_objc
    (bin : BinaryModel) (f : List Instruction) (ct : CallTarget)
    (h : ct ∈ call_targets bin f) (hd : ct.destination_address = none) :
    ct.is_external_objc_call = true :=
  ((callTargetsFrom_inv bin f f 0 ct h).1 hd).2

/-- C1 witness: the fully indirect dispatch of the concrete function `fW`
is among its call targets, has no destination address, and is classified
as an external Objective-C call. -/
theorem dest_absent_implies_external_objc_witness :
    ctIndirect ∈ call_targets binW fW ∧ ctIndirect.destination_address = none ∧
    ctIndirect.is_external_objc_call = true :=
  ⟨by decide, by decide,
   dest_absent_implies_external_objc binW fW ctIndirect (by decide) (by decide)⟩

/-- C8: every call target classified as an external C call carries as its
`symbol` exactly the import-table name bound to its
`destination_address`. -/
theorem external_c_call_symbol_matches_import
    (bin : BinaryModel) (f : List Instruction) (ct : CallTarget)
    (h : ct ∈ call_targets bin f) (hc : ct.is_external_c_call = true) :
    ∃ d, ct.destination_address = some d ∧ lookupAddr bin.importTable d = ct.symbol :=
  (callTargetsFrom_inv bin f f 0 ct h).2 hc

/-- C8 witness: the external C call of the concrete function `fW` is
among its call targets and its symbol is the import-table binding of its
destination. -/
theorem external_c_call_symbol_matches_import_witness :
    ctExternalC ∈ call_targets binW fW ∧ ctExternalC.is_external_c_call = true ∧
    (∃ d, ctExternalC.destination_address = some d ∧
      lookupAddr binW.importTable d = ctExternalC.symbol) :=
  ⟨by decide, by decide,
   external_c_call_symbol_matches_import binW fW ctExternalC (by decide) (by decide)⟩

/-- C10 counterexample: for a function consisting of a fully indirect
dispatch whose selector dataflow is `Unknown` inside a binary with empty
tables, the produced call target has an absent destination but also an
absent `selref` and `symbol` — refuting the claim that both fields are
always present when the destination is absent. -/
theorem dest_absent_strong_guarantee_false :
    ¬ (∀ ct ∈ call_targets binE fE, ct.destination_address = none →
        ct.is_msgSend_call = true ∧ ct.selref ≠ none ∧ ct.symbol ≠ none) := by
  decide

/-- C10 (amended): every call target with an absent `destination_address`
has both `is_msgSend_call` and `is_external_objc_call` true; its `selref`
and `symbol` may be absent when the selector dataflow is `Unknown` or the
relocation metadata carries no binding. -/
theorem dest_absent_implies_msgSend
    (bin : BinaryModel) (f : List Instruction) (ct : CallTarget)
    (h : ct ∈ call_targets bin f) (hd : ct.destination_address = none) :
    ct.is_msgSend_call = true ∧ ct.is_external_objc_call = true :=
  (callTargetsFrom_inv bin f f 0 ct h).1 hd

/-- C10 witness: the amended claim applied to the fully indirect dispatch
of the concrete function `fW`. -/
theorem dest_absent_implies_msgSend_witness :
    ctIndirect ∈ call_targets binW fW ∧ ctIndirect.destination_address = none ∧
    (ctIndirect.is_msgSend_call = true ∧ ctIndirect.is_external_objc_call = true) :=
  ⟨by decide, by decide, dest_absent_implies_msgSend binW fW ctIndirect (by decide) (by decide)⟩

/-- C2: resolving a register after the two-instruction pattern
`page-load R, #base` followed by `add R, R, #imm` or `sub R, R, #imm` —
the add/subtract both consumes and redefines `R`, so the scan
accumulates — yields `Immediate(base + imm)` respectively
`Immediate(base - imm)`, for any surrounding instructions; in particular
the pattern `page-load x1, #0x10011a000; add x1, x1, #0x9c8` resolves
`x1` to `Immediate(0x10011a9c8)`, and the three-operand form
`page-load x0, #0x102a41000; add x0, x0, #0x458` resolved at the
following call instruction yields `Immediate(0x102a41458)`. -/
theorem page_load_add_imm_resolution :
    (∀ (pre post : List Instruction) (a1 a2 : Nat) (r : String) (base imm : Nat),
      resolve (pre ++ [⟨a1, .pageLoad r base⟩, ⟨a2, .addImm r r imm⟩] ++ post) r
          (pre.length + 2)
        = .immediate ((base : Int) + (imm : Int))) ∧
    (∀ (pre post : List Instruction) (a1 a2 : Nat) (r : String) (base imm : Nat),
      resolve (pre ++ [⟨a1, .pageLoad r base⟩, ⟨a2, .subImm r r imm⟩] ++ post) r
          (pre.length + 2)
        = .immediate ((base : Int) - (imm : Int))) ∧
    resolve [⟨0x10000428c, .pageLoad "x1" 0x10011a000⟩,
             ⟨0x100004290, .addImm "x1" "x1" 0x9c8⟩] "x1" 2 = .immediate 0x10011a9c8 ∧
    resolve [⟨0x10000665c, .pageLoad "x0" 0x102a41000⟩,
             ⟨0x100006660, .addImm "x0" "x0" 0x458⟩,
             ⟨0x100006664, .uncondBranch (some 0x101f8600c)⟩] "x0" 2
      = .immediate 0x102a41458 := by
  refine ⟨?_, ?_, by decide, by decide⟩
  · intro pre post a1 a2 r base imm
    have htake :
        ((pre ++ ([⟨a1, .pageLoad r base⟩, ⟨a2, .addImm r r imm⟩] : List Instruction))
            ++ post).take (pre.length + 2)
          = pre ++ ([⟨a1, .pageLoad r base⟩, ⟨a2, .addImm r r imm⟩] : List Instruction) := by
      have h := @take_length_add Instruction
        (pre ++ [⟨a1, .pageLoad r base⟩, ⟨a2, .addImm r r imm⟩]) post 0
      simpa using h
    unfold resolve
    rw [htake, List.reverse_append]
    simp [scanDefines]
  · intro pre post a1 a2 r base imm
    have htake :
        ((pre ++ ([⟨a1, .pageLoad r base⟩, ⟨a2, .subImm r r imm⟩] : List Instruction))
            ++ post).take (pre.length + 2)
          = pre ++ ([⟨a1, .pageLoad r base⟩, ⟨a2, .subImm r r imm⟩] : List Instruction) := by
      have h := @take_length_add Instruction
        (pre ++ [⟨a1, .pageLoad r base⟩, ⟨a2, .subImm r r imm⟩]) post 0
      simpa using h
    unfold resolve
    rw [htake, List.reverse_append]
    simp [scanDefines, sub_eq_add_neg]

/-- C3: resolving a register after the pattern `page-load R, #base`
followed by the memory-load `load R, [R, #off]` yields
`Immediate(base + off)` — the effective address of the memory operand,
not the dereferenced value — for any surrounding instructions; in
particular `page-load x8, #0x100115000; load x8, [x8, #0x60]` resolves
`x8` to `Immediate(0x100115060)`. -/
theorem page_load_mem_load_resolution :
    (∀ (pre post : List Instruction) (a1 a2 : Nat) (r : String) (base off : Nat),
      resolve (pre ++ [⟨a1, .pageLoad r base⟩, ⟨a2, .memLoad r r off⟩] ++ post) r
          (pre.length + 2)
        = .immediate ((base : Int) + (off : Int))) ∧
    resolve [⟨0x100004744, .pageLoad "x8" 0x100115000⟩,
             ⟨0x100004748, .memLoad "x8" "x8" 0x60⟩] "x8" 2 = .immediate 0x100115060 := by
  refine ⟨?_, by decide⟩
  intro pre post a1 a2 r base off
  have htake :
      ((pre ++ ([⟨a1, .pageLoad r base⟩, ⟨a2, .memLoad r r off⟩] : List Instruction)) ++ post).take
          (pre.length + 2)
        = pre ++ ([⟨a1, .pageLoad r base⟩, ⟨a2, .memLoad r r off⟩] : List Instruction) := by
    have h := @take_length_add Instruction
      (pre ++ [⟨a1, .pageLoad r base⟩, ⟨a2, .memLoad r r off⟩]) post 0
    simpa using h
  unfold resolve
  rw [htake, List.reverse_append]
  simp [scanDefines]

/-- C4: `get_objc_selref` fails with `InvalidArgument` on any instruction
that is not an unconditional branch; on an unconditional branch it can
only return a selector-reference address that is a key of the binary's
selector-reference table. -/
theorem get_objc_selref_contract :
    (∀ (bin : BinaryModel) (f : List Instruction) (idx : Nat) (i : Instruction),
        i.op.isUncondBranch = false →
        get_objc_selref bin f idx i = .error .invalidArgument) ∧
    (∀ (bin : BinaryModel) (f : List Instruction) (idx : Nat) (i : Instruction) (v : Nat),
        get_objc_selref bin f idx i = .ok (some v) →
        ∃ nm, (v, nm) ∈ bin.selrefTable) := by
  constructor
  · intro bin f idx i h
    cases hop : i.op with
    | uncondBranch dest =>
        rw [hop] at h
        simp [Op.isUncondBranch] at h
    | pageLoad dst base => simp [get_objc_selref, hop]
    | addImm dst src imm => simp [get_objc_selref, hop]
    | subImm dst src imm => simp [get_objc_selref, hop]
    | memLoad dst base off => simp [get_objc_selref, hop]
    | condBranch d => simp [get_objc_selref, hop]
    | other clobbered => simp [get_objc_selref, hop]
  · intro bin f idx i v h
    cases hop : i.op with
    | uncondBranch dest =>
        simp only [get_objc_selref, hop] at h
        have h2 : selrefFromDataflow bin f idx = some v := by
          simpa using h
        unfold selrefFromDataflow at h2
        cases hr : resolve f selectorArgRegister idx with
        | unknown =>
            rw [hr] at h2
            simp at h2
        | immediate x =>
            rw [hr] at h2
            exact selrefLookup_mem bin.selrefTable x v h2
    | pageLoad dst base => simp [get_objc_selref, hop] at h
    | addImm dst src imm => simp [get_objc_selref, hop] at h
    | subImm dst src imm => simp [get_objc_selref, hop] at h
    | memLoad dst base off => simp [get_objc_selref, hop] at h
    | condBranch d => simp [get_objc_selref, hop] at h
    | other clobbered => simp [get_objc_selref, hop] at h

/-- C4 witness: on the concrete function `fW`, the non-branch add
instruction is rejected with `InvalidArgument`, and the fully indirect
branch returns the selector-reference address `0x1000090C0`, which is a
key of the binary's selector-reference table. -/
theorem get_objc_selref_contract_witness :
    Op.isUncondBranch (Op.addImm "x1" "x1" 0xC0) = false ∧
    get_objc_selref binW fW 1 ⟨0x1000064FC, .addImm "x1" "x1" 0xC0⟩ = .error .invalidArgument ∧
    get_objc_selref binW fW 2 ⟨0x100006500, .uncondBranch none⟩ = .ok (some 0x1000090C0) ∧
    (∃ nm, (0x1000090C0, nm) ∈ binW.selrefTable) :=
  ⟨by decide,
   get_objc_selref_contract.1 binW fW 1 ⟨0x1000064FC, .addImm "x1" "x1" 0xC0⟩ (by decide),
   by rfl,
   get_objc_selref_contract.2 binW fW 2 ⟨0x100006500, .uncondBranch none⟩ 0x1000090C0 (by rfl)⟩

/-- C9: register-dataflow resolution and call-target computation are
deterministic — equal function, register, index and binary inputs yield
equal `RegisterContents` and equal `CallTarget` sequences. -/
theorem resolution_deterministic :
    ∀ (f1 f2 : List Instruction) (r1 r2 : String) (i1 i2 : Nat) (b1 b2 : BinaryModel),
      f1 = f2 → r1 = r2 → i1 = i2 → b1 = b2 →
      resolve f1 r1 i1 = resolve f2 r2 i2 ∧ call_targets b1 f1 = call_targets b2 f2 := by
  intro f1 f2 r1 r2 i1 i2 b1 b2 hf hr hi hb
  subst hf
  subst hr
  subst hi
  subst hb
  exact ⟨rfl, rfl⟩

/-- C9 witness: determinism instantiated on the concrete delegate-method
scenario. -/
theorem resolution_deterministic_witness :
    resolve fW "x1" 2 = resolve fW "x1" 2 ∧ call_targets binW fW = call_targets binW fW :=
  resolution_deterministic fW fW "x1" "x1" 2 2 binW binW rfl rfl rfl rfl

end StrongarmModel
